import Mathlib

/-!
Verification development for the subset-sum search engine of `find.py`
(`eod_10.17.25`).  The Python source is shallowly embedded below: floats are
modelled as exact rationals, integer cents as `Int`, and the recursive
`backtrack` procedure (with its mutable `results` accumulator and in-place
`path`) as a pure function threading the accumulator explicitly.
-/

namespace FindCombinations

/-- Python 3 built-in `round` on the exact value of its argument:
round-half-to-even (banker's rounding).  The source calls `round(x * 100)`
inside `to_cents`; we model the float `x` by an exact rational, so the
representation error of binary floating point is outside this embedding. -/
def pythonRound (q : ℚ) : ℤ :=
  let f := q.floor
  let r := q - (f : ℚ)
  if r < 1/2 then f
  else if (1:ℚ)/2 < r then f + 1
  else if f % 2 = 0 then f else f + 1

/-- `to_cents` from find.py line 35-37: `int(round(x * 100))`.
For a float argument Python's `round(·)` already returns an `int`, so the
outer `int(...)` is the identity. -/
def to_cents (x : ℚ) : ℤ :=
  pythonRound (x * 100)

/-- Modelled from the spec: the rounding rule the spec claims for the
Amount Normalizer, `minor_units = round(value * 100)` with
round-half-away-from-zero.  Written from the spec's words for comparison
with `to_cents`; it is not in the source. -/
def roundHalfAwayFromZero (q : ℚ) : ℤ :=
  if 0 ≤ q then (q + 1/2).floor else -((-q + 1/2).floor)

/-- One candidate of the working list: `(value_cents, original_row_index)`,
i.e. one element of the Python list `combined = list(zip(cents, orig_indices))`. -/
abbrev Entry := Int × Nat

/-- One reported match, as built at find.py line 67:
`[(indices[i], values[i]) for i in path]` — a list of
`(original_index, value_cents)` pairs. -/
abbrev Combo := List (Nat × Int)

/-- Sum of the values of a list of entries.  For the tail of the working
list starting at position `i` this equals the table entry `suffix_sums[i]`
of find.py lines 55-57 (`suffix_sums[i] = suffix_sums[i+1] + values[i]`). -/
def sumVals (l : List Entry) : Int :=
  (l.map Prod.fst).sum

/-- Turn the current path (the entries chosen so far, in choice order) into
the recorded match: find.py line 67. -/
def renderPath (path : List Entry) : Combo :=
  path.map (fun e => (e.2, e.1))

/-- Sum of the values of a recorded match, as in find.py line 162:
`s = sum(val for _, val in m)`. -/
def matchSum (m : Combo) : Int :=
  (m.map Prod.snd).sum

/-- The recursive search of find.py lines 59-94 with `end_time = None`
(timeout polling disabled; the timed variant is `backtrackT` below).
The Python `for i in range(start, n)` loop and the entry checks of the
nested `backtrack` are fused into one recursion over the remaining tail of
the working list:

* argument 1: the tail `values[start:]` zipped with its original indices;
* `prev`: the loop's duplicate-tracking variable (find.py lines 74-79);
* `currSum`, `path`: the recursion state `curr_sum` and `path` (the path
  stores whole entries rather than positions, so the index arithmetic of
  the Python version disappears);
* `results`: the accumulator mutated by `results.append` at line 67.

Branches, in source order: the duplicate skip (line 77), the suffix-sum
break (line 83, `curr_sum + suffix_sums[i] < target` — `v + sumVals rest`
is exactly `suffix_sums[i]`), then the child call `backtrack(i+1, ...)`
whose entry checks (lines 66-72: exact match, overshoot, depth) are
inlined, and finally the `max_matches` early return (line 93). -/
def backtrack (target maxSize maxMatches : Int) :
    List Entry → Option Int → Int → List Entry → List Combo → List Combo
  | [], _, _, _, results => results
  | (v, idx) :: rest, prev, currSum, path, results =>
    if prev = some v then
      backtrack target maxSize maxMatches rest prev currSum path results
    else if currSum + (v + sumVals rest) < target then
      results
    else
      let newSum := currSum + v
      let newPath := path ++ [(v, idx)]
      let results' :=
        if newSum = target then results ++ [renderPath newPath]
        else if target < newSum then results
        else if maxSize ≤ (newPath.length : Int) then results
        else backtrack target maxSize maxMatches rest none newSum newPath results
      if maxMatches ≠ 0 ∧ maxMatches ≤ (results'.length : Int) then results'
      else backtrack target maxSize maxMatches rest (some v) currSum path results'

/-- `find_combinations` of find.py lines 40-97 with `end_time = None`:
the initial call `backtrack(0, 0, [])`, whose entry checks (lines 66-72)
are written out before entering the loop over the full working list. -/
def find_combinations (values : List Int) (indices : List Nat)
    (target maxSize maxMatches : Int) : List Combo :=
  if (0 : Int) = target then [renderPath []]
  else if target < 0 then []
  else if maxSize ≤ (0 : Int) then []
  else backtrack target maxSize maxMatches (values.zip indices) none 0 [] []

/-- Modelled from the spec: the "unpruned search" of the claim about
suffix-reachability pruning — identical to `backtrack` except that the
suffix-sum break (find.py line 83) is absent.  All other behaviour
(duplicate skip, exact-match acceptance, overshoot return, depth limit,
result cap) is unchanged. -/
def backtrackNP (target maxSize maxMatches : Int) :
    List Entry → Option Int → Int → List Entry → List Combo → List Combo
  | [], _, _, _, results => results
  | (v, idx) :: rest, prev, currSum, path, results =>
    if prev = some v then
      backtrackNP target maxSize maxMatches rest prev currSum path results
    else
      let newSum := currSum + v
      let newPath := path ++ [(v, idx)]
      let results' :=
        if newSum = target then results ++ [renderPath newPath]
        else if target < newSum then results
        else if maxSize ≤ (newPath.length : Int) then results
        else backtrackNP target maxSize maxMatches rest none newSum newPath results
      if maxMatches ≠ 0 ∧ maxMatches ≤ (results'.length : Int) then results'
      else backtrackNP target maxSize maxMatches rest (some v) currSum path results'

/-- `find_combinations` without the suffix-sum break (the "unpruned
search" of the suffix-reachability claim). -/
def find_combinations_noprune (values : List Int) (indices : List Nat)
    (target maxSize maxMatches : Int) : List Combo :=
  if (0 : Int) = target then [renderPath []]
  else if target < 0 then []
  else if maxSize ≤ (0 : Int) then []
  else backtrackNP target maxSize maxMatches (values.zip indices) none 0 [] []

/-- Modelled from the spec: `backtrack` with the overshoot check
(find.py lines 69-70, `if curr_sum > target: return`) disabled, as the
spec mandates for runs whose working set contains a negative amount.
Identical to `backtrack` otherwise. -/
def backtrackNoOvershoot (target maxSize maxMatches : Int) :
    List Entry → Option Int → Int → List Entry → List Combo → List Combo
  | [], _, _, _, results => results
  | (v, idx) :: rest, prev, currSum, path, results =>
    if prev = some v then
      backtrackNoOvershoot target maxSize maxMatches rest prev currSum path results
    else if currSum + (v + sumVals rest) < target then
      results
    else
      let newSum := currSum + v
      let newPath := path ++ [(v, idx)]
      let results' :=
        if newSum = target then results ++ [renderPath newPath]
        else if maxSize ≤ (newPath.length : Int) then results
        else backtrackNoOvershoot target maxSize maxMatches rest none newSum newPath results
      if maxMatches ≠ 0 ∧ maxMatches ≤ (results'.length : Int) then results'
      else backtrackNoOvershoot target maxSize maxMatches rest (some v) currSum path results'

/-- Modelled from the spec: `find_combinations` with the overshoot
pruning disabled (the behaviour the spec requires when any working-set
value is negative).  Not in the source, which applies the overshoot check
unconditionally. -/
def find_combinations_overshoot_disabled (values : List Int) (indices : List Nat)
    (target maxSize maxMatches : Int) : List Combo :=
  if (0 : Int) = target then [renderPath []]
  else if maxSize ≤ (0 : Int) then []
  else backtrackNoOvershoot target maxSize maxMatches (values.zip indices) none 0 [] []

/-- The timed search of find.py lines 59-94 with `end_time` set (not
`None`).  Wall-clock time is modelled by a tick counter: every entry into
the nested Python `backtrack` performs one `time.time()` poll (line 62),
modelled as incrementing the clock and comparing it with `deadline`.  On
timeout the source raises `TimeoutError()` (line 65), which unwinds every
frame and loses the local `results` list of `find_combinations`; here the
raise is `Except.error` whose payload records that lost accumulator, so
that theorems can speak about what was discarded.  A normal return is
`Except.ok (results, clock)`. -/
def backtrackT (target maxSize maxMatches : Int) (deadline : Nat) :
    List Entry → Option Int → Int → List Entry → List Combo → Nat →
    Except (List Combo) (List Combo × Nat)
  | [], _, _, _, results, clock => .ok (results, clock)
  | (v, idx) :: rest, prev, currSum, path, results, clock =>
    if prev = some v then
      backtrackT target maxSize maxMatches deadline rest prev currSum path results clock
    else if currSum + (v + sumVals rest) < target then
      .ok (results, clock)
    else
      if deadline < clock + 1 then .error results
      else
        let newSum := currSum + v
        let newPath := path ++ [(v, idx)]
        let res' :=
          if newSum = target then .ok (results ++ [renderPath newPath], clock + 1)
          else if target < newSum then .ok (results, clock + 1)
          else if maxSize ≤ (newPath.length : Int) then .ok (results, clock + 1)
          else backtrackT target maxSize maxMatches deadline rest none newSum newPath results (clock + 1)
        match res' with
        | .error r => .error r
        | .ok (results', clock') =>
          if maxMatches ≠ 0 ∧ maxMatches ≤ (results'.length : Int) then .ok (results', clock')
          else backtrackT target maxSize maxMatches deadline rest (some v) currSum path results' clock'

/-- `find_combinations` with an active deadline: the initial
`backtrack(0, 0, [])` call also polls the clock at entry (find.py line 62)
before its entry checks. -/
def find_combinations_timed (values : List Int) (indices : List Nat)
    (target maxSize maxMatches : Int) (deadline clock : Nat) :
    Except (List Combo) (List Combo × Nat) :=
  if deadline < clock + 1 then .error []
  else if (0 : Int) = target then .ok ([renderPath []], clock + 1)
  else if target < 0 then .ok ([], clock + 1)
  else if maxSize ≤ (0 : Int) then .ok ([], clock + 1)
  else backtrackT target maxSize maxMatches deadline (values.zip indices) none 0 [] [] (clock + 1)

/-- The per-target loop body of `main`, find.py lines 152-164, for a run
with an active deadline: call the search, on `TimeoutError` set
`matches = []` (line 158), then keep the matches within tolerance and tag
them with the target (lines 160-164). -/
def collect_for_target_timed (values : List Int) (indices : List Nat)
    (t tolCents maxSize maxMatches : Int) (deadline clock : Nat) :
    List (Int × Combo) :=
  match find_combinations_timed values indices t maxSize maxMatches deadline clock with
  | .error _ => []
  | .ok (found, _) =>
    (found.filter (fun m => |matchSum m - t| ≤ tolCents)).map (fun m => (t, m))

/-- Stable insertion of an entry into a value-ascending list: the new
entry goes after strictly smaller values and before greater-or-equal
ones, so earlier input entries stay before equal-valued later ones. -/
def insertByValue (p : Entry) : List Entry → List Entry
  | [] => [p]
  | q :: rest => if q.1 < p.1 then q :: insertByValue p rest else p :: q :: rest

/-- Stable ascending sort by value: models `combined.sort(key=lambda x: x[0])`
at find.py line 133 (Python's list sort is stable). -/
def sortByValue (l : List Entry) : List Entry :=
  l.foldr insertByValue []

/-- Candidate filtering, find.py lines 123-126: the working list
`combined = list(zip(cents, orig_indices))`, restricted to values at most
`target + tol` when every value is non-negative and left whole otherwise. -/
def candidatePairs (rows : List (Nat × ℚ)) (targetCents tolCents : Int) : List Entry :=
  let cents := rows.map (fun r => (to_cents r.2, r.1))
  if ∀ p ∈ cents, 0 ≤ p.1 then cents.filter (fun p => p.1 ≤ targetCents + tolCents)
  else cents

/-- The per-target loop body of `main` (find.py lines 152-164) for a run
with no active deadline: search, then keep matches within tolerance of the
target, tagged with the target. -/
def collectFor (sorted : List Entry) (t tolCents maxSize maxMatches : Int) :
    List (Int × Combo) :=
  ((find_combinations (sorted.map Prod.fst) (sorted.map Prod.snd)
      t maxSize maxMatches).filter
    (fun m => |matchSum m - t| ≤ tolCents)).map (fun m => (t, m))

/-- `main` of find.py lines 100-164, modelled for executions in which no
deadline fires (in the source this is exact whenever `timeout <= 0`, line
141, which sets `end_time = None`).  I/O is abstracted: `colPresent` says
whether `args.col` is among the CSV's columns, and `rows` is the post-
`dropna` series as `(original_index, float_value)` pairs with floats as
exact rationals.  The `timeout` argument is carried for interface
fidelity but, per the above, does not influence the result. -/
def main_model (colPresent : Bool) (rows : List (Nat × ℚ)) (target tol : ℚ)
    (maxSize maxMatches : Int) (timeout : ℚ) (bothSigns : Bool) :
    Except String (List (Int × Combo)) :=
  if colPresent = false then .error "column not found"
  else
    let targetCents := to_cents target
    let tolCents := to_cents tol
    let combined := candidatePairs rows targetCents tolCents
    if combined = [] then .ok []
    else
      let sorted := sortByValue combined
      let targets := if bothSigns then [targetCents, -targetCents] else [targetCents]
      .ok (targets.map (fun t => collectFor sorted t tolCents maxSize maxMatches)).flatten

/-- Modelled from the spec: the both-signs pipeline as the spec describes
it — the *whole* of candidate filtering and sorting (4.2) and the search
(4.3) repeated for `target' = -target`, with each run filtering against
its own target's window, and the two tagged match lists concatenated.
Not in the source, which filters and sorts once. -/
def mainBothSpec (rows : List (Nat × ℚ)) (target tol : ℚ)
    (maxSize maxMatches : Int) : List (Int × Combo) :=
  let tolCents := to_cents tol
  let runFor := fun (t : Int) =>
    let combined := candidatePairs rows t tolCents
    collectFor (sortByValue combined) t tolCents maxSize maxMatches
  runFor (to_cents target) ++ runFor (-(to_cents target))

/-- Whether an `Except` result is a normal (non-error) result. -/
def isOkB : Except String (List (Int × Combo)) → Bool
  | .ok _ => true
  | .error _ => false

/-! ### Helper lemmas -/

theorem ratFloor_eq (q : ℚ) : q.floor = ⌊q⌋ :=
  (Rat.floor_def' q).trans Rat.floor_def.symm

theorem pythonRound_intCast (n : ℤ) : pythonRound ((n : ℚ)) = n := by
  simp [pythonRound, ratFloor_eq]

theorem to_cents_eq_of (x : ℚ) (n : ℤ) (h : x * 100 = (n : ℚ)) : to_cents x = n := by
  rw [to_cents, h, pythonRound_intCast]

theorem to_cents_5 : to_cents 5 = 500 := to_cents_eq_of 5 500 (by norm_num)

theorem to_cents_8 : to_cents 8 = 800 := to_cents_eq_of 8 800 (by norm_num)

theorem to_cents_10 : to_cents 10 = 1000 := to_cents_eq_of 10 1000 (by norm_num)

theorem to_cents_neg3 : to_cents (-3) = -300 := to_cents_eq_of (-3) (-300) (by norm_num)

theorem to_cents_zero : to_cents 0 = 0 := to_cents_eq_of 0 0 (by norm_num)

theorem to_cents_one : to_cents 1 = 100 := to_cents_eq_of 1 100 (by norm_num)

theorem to_cents_7 : to_cents 7 = 700 := to_cents_eq_of 7 700 (by norm_num)

theorem to_cents_neg7 : to_cents (-7) = -700 := to_cents_eq_of (-7) (-700) (by norm_num)

theorem to_cents_cent : to_cents (1/100) = 1 := to_cents_eq_of (1/100) 1 (by norm_num)

theorem to_cents_neg_cent : to_cents (-1/100) = -1 :=
  to_cents_eq_of (-1/100) (-1) (by norm_num)

theorem sumVals_append (l1 l2 : List Entry) :
    sumVals (l1 ++ l2) = sumVals l1 + sumVals l2 := by
  simp [sumVals]

theorem sumVals_cons (e : Entry) (l : List Entry) :
    sumVals (e :: l) = e.1 + sumVals l := by
  simp [sumVals]

theorem sumVals_nonneg {l : List Entry} (h : ∀ p ∈ l, 0 ≤ p.1) : 0 ≤ sumVals l := by
  refine List.sum_nonneg ?_
  intro x hx
  obtain ⟨p, hp, rfl⟩ := List.mem_map.1 hx
  exact h p hp

theorem matchSum_renderPath (p : List Entry) :
    matchSum (renderPath p) = sumVals p := by
  simp only [matchSum, renderPath, sumVals, List.map_map]
  rfl

theorem mem_left_of_zip {a : Int} {b : Nat} :
    ∀ {l1 : List Int} {l2 : List Nat}, (a, b) ∈ l1.zip l2 → a ∈ l1 := by
  intro l1
  induction l1 with
  | nil => intro l2 h; simp at h
  | cons x xs ih =>
    intro l2 h
    cases l2 with
    | nil => simp at h
    | cons y ys =>
      rw [List.zip_cons_cons] at h
      rcases List.mem_cons.1 h with h | h
      · rw [Prod.mk.injEq] at h
        exact h.1 ▸ List.mem_cons_self x xs
      · exact List.mem_cons_of_mem x (ih h)

/-- Invariant of the accumulator: if `curr_sum` is the sum of the values
on `path`, every match that `backtrack` ever appends has value sum equal
to `target` (the acceptance check at find.py line 66 is exact equality). -/
theorem backtrack_sum_inv (target maxSize maxMatches : Int) :
    ∀ (rest : List Entry) (prev : Option Int) (currSum : Int) (path : List Entry)
      (results : List Combo),
      currSum = sumVals path →
      (∀ m ∈ results, matchSum m = target) →
      ∀ m ∈ backtrack target maxSize maxMatches rest prev currSum path results,
        matchSum m = target := by
  intro rest
  induction rest with
  | nil =>
    intro prev currSum path results _ hres m hm
    rw [backtrack] at hm
    exact hres m hm
  | cons hd tl ih =>
    obtain ⟨v, idx⟩ := hd
    intro prev currSum path results hsum hres m hm
    rw [backtrack] at hm
    by_cases hskip : prev = some v
    · rw [if_pos hskip] at hm
      exact ih prev currSum path results hsum hres m hm
    · rw [if_neg hskip] at hm
      by_cases hpr : currSum + (v + sumVals tl) < target
      · rw [if_pos hpr] at hm
        exact hres m hm
      · rw [if_neg hpr] at hm
        simp only at hm
        have hchild : ∀ m' ∈ (if currSum + v = target
              then results ++ [renderPath (path ++ [(v, idx)])]
              else if target < currSum + v then results
              else if maxSize ≤ (((path ++ [(v, idx)]).length : Nat) : Int) then results
              else backtrack target maxSize maxMatches tl none (currSum + v)
                (path ++ [(v, idx)]) results),
            matchSum m' = target := by
          intro m' hm'
          by_cases h1 : currSum + v = target
          · rw [if_pos h1] at hm'
            rcases List.mem_append.1 hm' with h | h
            · exact hres m' h
            · rw [List.mem_singleton.1 h, matchSum_renderPath, sumVals_append, sumVals_cons,
                ← hsum]
              simpa [sumVals] using h1
          · rw [if_neg h1] at hm'
            by_cases h2 : target < currSum + v
            · rw [if_pos h2] at hm'
              exact hres m' hm'
            · rw [if_neg h2] at hm'
              by_cases h3 : maxSize ≤ (((path ++ [(v, idx)]).length : Nat) : Int)
              · rw [if_pos h3] at hm'
                exact hres m' hm'
              · rw [if_neg h3] at hm'
                refine ih none (currSum + v) (path ++ [(v, idx)]) results ?_ hres m' hm'
                rw [sumVals_append, sumVals_cons, ← hsum]
                simp [sumVals]
        by_cases hcap : maxMatches ≠ 0 ∧ maxMatches ≤
            (((if currSum + v = target
              then results ++ [renderPath (path ++ [(v, idx)])]
              else if target < currSum + v then results
              else if maxSize ≤ (((path ++ [(v, idx)]).length : Nat) : Int) then results
              else backtrack target maxSize maxMatches tl none (currSum + v)
                (path ++ [(v, idx)]) results).length : Nat) : Int)
        · rw [if_pos hcap] at hm
          exact hchild m hm
        · rw [if_neg hcap] at hm
          exact ih (some v) currSum path _ hsum hchild m hm

/-- Every match reported by `find_combinations` sums exactly to the
target. -/
theorem find_combinations_sum_inv (values : List Int) (indices : List Nat)
    (target maxSize maxMatches : Int) :
    ∀ m ∈ find_combinations values indices target maxSize maxMatches,
      matchSum m = target := by
  intro m hm
  rw [find_combinations] at hm
  by_cases h0 : (0 : Int) = target
  · rw [if_pos h0] at hm
    rw [List.mem_singleton.1 hm]
    simpa [matchSum, renderPath] using h0
  · rw [if_neg h0] at hm
    by_cases hneg : target < 0
    · rw [if_pos hneg] at hm
      exact absurd hm (List.not_mem_nil m)
    · rw [if_neg hneg] at hm
      by_cases hms : maxSize ≤ (0 : Int)
      · rw [if_pos hms] at hm
        exact absurd hm (List.not_mem_nil m)
      · rw [if_neg hms] at hm
        exact backtrack_sum_inv target maxSize maxMatches _ none 0 [] []
          (by simp [sumVals]) (by simp) m hm

/-- A timed run of `backtrack` that finishes without raising produces
exactly the untimed accumulator: the deadline and start clock influence
only whether the run finishes, never which matches it finds. -/
theorem backtrackT_ok_eq (target maxSize maxMatches : Int) (deadline : Nat) :
    ∀ (rest : List Entry) (prev : Option Int) (currSum : Int) (path : List Entry)
      (results : List Combo) (clock : Nat) (ms : List Combo) (k : Nat),
      backtrackT target maxSize maxMatches deadline rest prev currSum path results clock =
        .ok (ms, k) →
      ms = backtrack target maxSize maxMatches rest prev currSum path results := by
  intro rest
  induction rest with
  | nil =>
    intro prev currSum path results clock ms k h
    rw [backtrackT] at h
    injection h with h'
    injection h' with h1 h2
    rw [backtrack, ← h1]
  | cons hd tl ih =>
    obtain ⟨v, idx⟩ := hd
    intro prev currSum path results clock ms k h
    rw [backtrackT] at h
    rw [backtrack]
    by_cases hskip : prev = some v
    · rw [if_pos hskip] at h ⊢
      exact ih prev currSum path results clock ms k h
    · rw [if_neg hskip] at h ⊢
      by_cases hpr : currSum + (v + sumVals tl) < target
      · rw [if_pos hpr] at h ⊢
        injection h with h'
        injection h' with h1 h2
        rw [← h1]
      · rw [if_neg hpr] at h ⊢
        by_cases hdl : deadline < clock + 1
        · rw [if_pos hdl] at h
          exact absurd h (by simp)
        · rw [if_neg hdl] at h
          simp only at h ⊢
          by_cases h1 : currSum + v = target
          · rw [if_pos h1] at h ⊢
            dsimp only at h
            by_cases hcap : maxMatches ≠ 0 ∧ maxMatches ≤
                (((results ++ [renderPath (path ++ [(v, idx)])]).length : Nat) : Int)
            · rw [if_pos hcap] at h ⊢
              injection h with h'
              injection h' with hm hk
              rw [← hm]
            · rw [if_neg hcap] at h ⊢
              exact ih (some v) currSum path _ (clock + 1) ms k h
          · rw [if_neg h1] at h ⊢
            by_cases h2 : target < currSum + v
            · rw [if_pos h2] at h ⊢
              dsimp only at h
              by_cases hcap : maxMatches ≠ 0 ∧ maxMatches ≤ ((results.length : Nat) : Int)
              · rw [if_pos hcap] at h ⊢
                injection h with h'
                injection h' with hm hk
                rw [← hm]
              · rw [if_neg hcap] at h ⊢
                exact ih (some v) currSum path results (clock + 1) ms k h
            · rw [if_neg h2] at h ⊢
              by_cases h3 : maxSize ≤ (((path ++ [(v, idx)]).length : Nat) : Int)
              · rw [if_pos h3] at h ⊢
                dsimp only at h
                by_cases hcap : maxMatches ≠ 0 ∧ maxMatches ≤ ((results.length : Nat) : Int)
                · rw [if_pos hcap] at h ⊢
                  injection h with h'
                  injection h' with hm hk
                  rw [← hm]
                · rw [if_neg hcap] at h ⊢
                  exact ih (some v) currSum path results (clock + 1) ms k h
              · rw [if_neg h3] at h ⊢
                cases hres' : backtrackT target maxSize maxMatches deadline tl none
                    (currSum + v) (path ++ [(v, idx)]) results (clock + 1) with
                | error r =>
                  rw [hres'] at h
                  dsimp only at h
                  exact absurd h (by simp)
                | ok p =>
                  obtain ⟨r1, c1⟩ := p
                  rw [hres'] at h
                  dsimp only at h
                  have hr1 : r1 = backtrack target maxSize maxMatches tl none
                      (currSum + v) (path ++ [(v, idx)]) results :=
                    ih none (currSum + v) (path ++ [(v, idx)]) results (clock + 1) r1 c1 hres'
                  rw [← hr1]
                  by_cases hcap : maxMatches ≠ 0 ∧ maxMatches ≤ ((r1.length : Nat) : Int)
                  · rw [if_pos hcap] at h ⊢
                    injection h with h'
                    injection h' with hm hk
                    rw [← hm]
                  · rw [if_neg hcap] at h ⊢
                    exact ih (some v) currSum path r1 c1 ms k h

/-- A timed `find_combinations` run that finishes without raising returns
exactly the untimed match list. -/
theorem find_combinations_timed_ok_eq (values : List Int) (indices : List Nat)
    (target maxSize maxMatches : Int) (deadline clock : Nat) (ms : List Combo) (k : Nat)
    (h : find_combinations_timed values indices target maxSize maxMatches deadline clock =
      .ok (ms, k)) :
    ms = find_combinations values indices target maxSize maxMatches := by
  rw [find_combinations_timed] at h
  rw [find_combinations]
  by_cases hdl : deadline < clock + 1
  · rw [if_pos hdl] at h
    exact absurd h (by simp)
  · rw [if_neg hdl] at h
    by_cases h0 : (0 : Int) = target
    · rw [if_pos h0] at h ⊢
      injection h with h'
      injection h' with h1 h2
      rw [← h1]
    · rw [if_neg h0] at h ⊢
      by_cases hneg : target < 0
      · rw [if_pos hneg] at h ⊢
        injection h with h'
        injection h' with h1 h2
        rw [← h1]
      · rw [if_neg hneg] at h ⊢
        by_cases hms : maxSize ≤ (0 : Int)
        · rw [if_pos hms] at h ⊢
          injection h with h'
          injection h' with h1 h2
          rw [← h1]
        · rw [if_neg hms] at h ⊢
          exact backtrackT_ok_eq target maxSize maxMatches deadline _ none 0 [] []
            (clock + 1) ms k h

/-- If `curr_sum + suffix < target` cannot be met even with every
remaining non-negative value, the unpruned search adds nothing to the
accumulator: the branch the break skips is empty-handed. -/
theorem backtrackNP_unreachable (target maxSize maxMatches : Int) :
    ∀ (rest : List Entry) (prev : Option Int) (currSum : Int) (path : List Entry)
      (results : List Combo),
      (∀ p ∈ rest, 0 ≤ p.1) →
      currSum + sumVals rest < target →
      backtrackNP target maxSize maxMatches rest prev currSum path results = results := by
  intro rest
  induction rest with
  | nil =>
    intro prev currSum path results _ _
    rw [backtrackNP]
  | cons hd tl ih =>
    obtain ⟨v, idx⟩ := hd
    intro prev currSum path results hnn hlt
    have hv : 0 ≤ v := hnn (v, idx) (List.mem_cons_self _ _)
    have htl : ∀ p ∈ tl, 0 ≤ p.1 := fun p hp => hnn p (List.mem_cons_of_mem _ hp)
    have htlsum : 0 ≤ sumVals tl := sumVals_nonneg htl
    rw [sumVals_cons] at hlt
    rw [backtrackNP]
    by_cases hskip : prev = some v
    · rw [if_pos hskip]
      exact ih prev currSum path results htl (by linarith)
    · rw [if_neg hskip]
      simp only
      have hlt2 : currSum + v < target := by linarith
      rw [if_neg (ne_of_lt hlt2)]
      rw [if_neg (by linarith : ¬ target < currSum + v)]
      by_cases h3 : maxSize ≤ (((path ++ [(v, idx)]).length : Nat) : Int)
      · rw [if_pos h3]
        by_cases hcap : maxMatches ≠ 0 ∧ maxMatches ≤ ((results.length : Nat) : Int)
        · rw [if_pos hcap]
        · rw [if_neg hcap]
          exact ih (some v) currSum path results htl (by linarith)
      · rw [if_neg h3]
        rw [ih none (currSum + v) (path ++ [(v, idx)]) results htl (by linarith)]
        by_cases hcap : maxMatches ≠ 0 ∧ maxMatches ≤ ((results.length : Nat) : Int)
        · rw [if_pos hcap]
        · rw [if_neg hcap]
          exact ih (some v) currSum path results htl (by linarith)

/-- On a working list of non-negative values the search with the
suffix-sum break and the search without it produce the same accumulator. -/
theorem backtrack_eq_NP (target maxSize maxMatches : Int) :
    ∀ (rest : List Entry) (prev : Option Int) (currSum : Int) (path : List Entry)
      (results : List Combo),
      (∀ p ∈ rest, 0 ≤ p.1) →
      backtrack target maxSize maxMatches rest prev currSum path results =
      backtrackNP target maxSize maxMatches rest prev currSum path results := by
  intro rest
  induction rest with
  | nil =>
    intro prev currSum path results _
    rw [backtrack, backtrackNP]
  | cons hd tl ih =>
    obtain ⟨v, idx⟩ := hd
    intro prev currSum path results hnn
    have htl : ∀ p ∈ tl, 0 ≤ p.1 := fun p hp => hnn p (List.mem_cons_of_mem _ hp)
    rw [backtrack]
    by_cases hskip : prev = some v
    · rw [if_pos hskip, backtrackNP, if_pos hskip]
      exact ih prev currSum path results htl
    · rw [if_neg hskip]
      by_cases hpr : currSum + (v + sumVals tl) < target
      · rw [if_pos hpr]
        refine (backtrackNP_unreachable target maxSize maxMatches ((v, idx) :: tl)
          prev currSum path results hnn ?_).symm
        rw [sumVals_cons]
        exact hpr
      · rw [if_neg hpr, backtrackNP, if_neg hskip]
        simp only
        rw [ih none (currSum + v) (path ++ [(v, idx)]) results htl]
        rw [ih (some v) currSum path _ htl]

/-! ### Claim theorems -/

/-- C1: the claim says a mid-search timeout returns the matches
accumulated so far, flagged as truncated.  The code does the opposite: on
the working list `[5, 10]` (cents) with target `5` and a deadline that
fires on the third `backtrack` entry, the search aborts with the match
`[(0, 5)]` already accumulated (the `TimeoutError`'s payload records the
about-to-be-lost accumulator), yet `main`'s handler (`matches = []`,
find.py line 158) yields an empty match list for that run: the partial
results are discarded and no truncation flag exists. -/
theorem C1_timeout_discards_accumulated :
    find_combinations_timed [5, 10] [0, 1] 5 5 0 2 0 = .error [[(0, 5)]] ∧
    collect_for_target_timed [5, 10] [0, 1] 5 1 5 0 2 0 = [] :=
  ⟨rfl, rfl⟩

/-- C2, counterexample: on the working list `[-5, 3]` (sorted ascending,
one negative value) with target `3`, the search with the suffix-sum break
finds no match, while the identical search without the break finds the
valid match `{3}`: the pruning is not lossless on every working list. -/
theorem C2_pruning_loses_match_with_negatives :
    find_combinations [-5, 3] [0, 1] 3 5 0 = [] ∧
    find_combinations_noprune [-5, 3] [0, 1] 3 5 0 = [[(1, 3)]] :=
  ⟨rfl, rfl⟩

/-- C3: the claim says the overshoot pruning (`curr_sum > target`) is
disabled for runs whose working set contains a negative value.  It is
not: on the working list `[-10, -3]` with target `-13` the very first
`backtrack` entry has `0 > -13` and returns, so the code finds no match
at all, while the same search with the overshoot check disabled (as the
spec mandates) finds the exact match `{-10, -3}`, whose sum is the
target. -/
theorem C3_overshoot_pruning_never_disabled :
    find_combinations [-10, -3] [0, 1] (-13) 5 0 = [] ∧
    find_combinations_overshoot_disabled [-10, -3] [0, 1] (-13) 5 0 = [[(0, -10), (1, -3)]] ∧
    matchSum [(0, -10), (1, -3)] = -13 :=
  ⟨rfl, rfl, rfl⟩

/-- C4: for amounts `[-3.00, 8.00, 5.00]` and target `5.00` (zero
tolerance, unbounded cap, max size 5) the pipeline reports exactly the
matches `{-3.00, 8.00}` and `{5.00}`, each tagged with the 500-cent
target, and no others. -/
theorem C4_negative_amounts_example :
    main_model true [(0, -3), (1, 8), (2, 5)] 5 0 5 0 0 false =
      .ok [(500, [(0, -300), (1, 800)]), (500, [(2, 500)])] := by
  simp only [main_model, candidatePairs, List.map, to_cents_neg3, to_cents_8, to_cents_5,
    to_cents_zero]
  rfl

/-- C5: for amounts `[5.00, 5.00, 10.00]` and target `10.00` with zero
tolerance, unbounded cap and max size 5, the pipeline reports exactly two
matches: `{5.00, 5.00}` using both entries (distinct origin ids 0 and 1)
and `{10.00}` alone — not four. -/
theorem C5_duplicate_values_example :
    main_model true [(0, 5), (1, 5), (2, 10)] 10 0 5 0 0 false =
      .ok [(1000, [(0, 500), (1, 500)]), (1000, [(2, 1000)])] := by
  simp only [main_model, candidatePairs, List.map, to_cents_5, to_cents_10, to_cents_zero]
  rfl

theorem to_cents_half : to_cents (1/40) = 2 := by
  have h : ((1 : ℚ)/40) * 100 = 5/2 := by norm_num
  rw [to_cents, h]
  simp only [pythonRound, ratFloor_eq]
  norm_num

theorem roundAway_half : roundHalfAwayFromZero ((1/40 : ℚ) * 100) = 3 := by
  have h : ((1 : ℚ)/40) * 100 = 5/2 := by norm_num
  rw [h]
  simp only [roundHalfAwayFromZero, ratFloor_eq]
  norm_num

/-- C6, counterexample: the claim says the normalizer rounds exact halves
away from zero.  At `x = 1/40` (so `x * 100 = 5/2`, an exact half) the
code's `round` is Python's round-half-to-even and yields `2`, while
round-half-away-from-zero yields `3`. -/
theorem C6_half_rounds_to_even_not_away :
    to_cents (1/40) ≠ roundHalfAwayFromZero ((1/40 : ℚ) * 100) := by
  rw [to_cents_half, roundAway_half]
  decide

/-- C6, amended: the normalizer computes `round(x * 100)` with Python's
round-half-to-even semantics.  At every exact half `x * 100 = n + 1/2`
(`x = (2n+1)/200`) the result is the even neighbour: `n` when `n` is
even, `n + 1` when `n` is odd — not the away-from-zero neighbour. -/
theorem C6_to_cents_half_to_even (n : ℤ) :
    to_cents ((2 * (n : ℚ) + 1) / 200) = if n % 2 = 0 then n else n + 1 := by
  have h : ((2 * (n : ℚ) + 1) / 200) * 100 = (n : ℚ) + 1/2 := by
    field_simp
    ring
  rw [to_cents, h]
  simp only [pythonRound, ratFloor_eq]
  have hf : ⌊(n : ℚ) + 1/2⌋ = n := by
    rw [Int.floor_int_add]
    norm_num
  rw [hf]
  have hr : ((n : ℚ) + 1/2) - (n : ℚ) = 1/2 := by ring
  rw [hr]
  norm_num

/-- C7, counterexample: the claim says a non-positive
`max_combination_size`, a negative tolerance or a negative time budget
each raise a fatal configuration error before any search.  With the
column present, `max-size 0`, tolerance `-0.01` and timeout `-5`, the run
completes normally with an empty match list — no error is raised (the
negative tolerance empties the candidate filter, a non-positive timeout
merely disables the deadline). -/
theorem C7_invalid_config_accepted :
    main_model true [(0, 1)] 1 (-1/100) 0 0 (-5) false = .ok [] := by
  simp only [main_model, candidatePairs, List.map, to_cents_one, to_cents_neg_cent]
  rfl

/-- C7, amended: the only configuration condition surfaced as a fatal
error before the search is a missing required column; every other
configuration (any `max_combination_size`, tolerance, time budget, sign
option) produces a normal result. -/
theorem C7_error_iff_missing_column (colPresent : Bool) (rows : List (Nat × ℚ))
    (target tol : ℚ) (maxSize maxMatches : Int) (timeout : ℚ) (bothSigns : Bool) :
    isOkB (main_model colPresent rows target tol maxSize maxMatches timeout bothSigns) =
      colPresent := by
  cases colPresent
  · rfl
  · simp only [main_model, Bool.true_eq_false, if_false]
    split
    · rfl
    · rfl

/-- C8, counterexample: the claim says the whole pipeline, candidate
filtering and sorting included, is rerun for `target' = -target`.  For
amounts `[7.00]` with target `-7.00` and both-signs set, the code filters
once against the `-7.00` window, which empties the candidate list and
ends the run with no matches at all, whereas the spec's
pipeline-per-target (modelled by `mainBothSpec`) refilters for `+7.00`
and finds the match `{7.00}` tagged with target `700`. -/
theorem C8_filter_not_rerun_for_negated_target :
    main_model true [(0, 7)] (-7) (1/100) 5 0 0 true = .ok [] ∧
    mainBothSpec [(0, 7)] (-7) (1/100) 5 0 = [(700, [(0, 700)])] := by
  constructor
  · simp only [main_model, candidatePairs, List.map, to_cents_7, to_cents_neg7, to_cents_cent]
    rfl
  · simp only [mainBothSpec, candidatePairs, List.map, to_cents_7, to_cents_neg7, to_cents_cent]
    rfl

/-- C8, amended: with the both-signs option, candidate filtering and
sorting happen once, against the original target's window; only the
backtracking search and the tolerance re-filter are repeated with
`target' = -target`, over that shared candidate list, and the two tagged
match lists are concatenated (and if the once-filtered list is empty the
whole run reports no matches for either sign). -/
theorem C8_both_signs_shares_candidates (rows : List (Nat × ℚ)) (target tol : ℚ)
    (maxSize maxMatches : Int) (timeout : ℚ) :
    main_model true rows target tol maxSize maxMatches timeout true =
      (if candidatePairs rows (to_cents target) (to_cents tol) = [] then .ok []
       else .ok
        (collectFor (sortByValue (candidatePairs rows (to_cents target) (to_cents tol)))
            (to_cents target) (to_cents tol) maxSize maxMatches ++
         collectFor (sortByValue (candidatePairs rows (to_cents target) (to_cents tol)))
            (-(to_cents target)) (to_cents tol) maxSize maxMatches)) := by
  simp only [main_model, Bool.true_eq_false, if_false]
  split
  · rfl
  · simp [List.flatten]

/-- C2, amended: when every value of the working list is non-negative
(where `curr_sum + suffix[i] < target` indeed implies no combination of
remaining values can reach the target and later suffixes are no larger),
the search with the suffix-reachability break finds exactly the matches
the unpruned search finds; with negative values present this fails, see
the counterexample. -/
theorem C2_suffix_pruning_lossless_nonneg (values : List Int) (indices : List Nat)
    (target maxSize maxMatches : Int) (h : ∀ v ∈ values, 0 ≤ v) :
    find_combinations values indices target maxSize maxMatches =
    find_combinations_noprune values indices target maxSize maxMatches := by
  rw [find_combinations, find_combinations_noprune]
  by_cases h0 : (0 : Int) = target
  · rw [if_pos h0, if_pos h0]
  · rw [if_neg h0, if_neg h0]
    by_cases hneg : target < 0
    · rw [if_pos hneg, if_pos hneg]
    · rw [if_neg hneg, if_neg hneg]
      by_cases hms : maxSize ≤ (0 : Int)
      · rw [if_pos hms, if_pos hms]
      · rw [if_neg hms, if_neg hms]
        refine backtrack_eq_NP target maxSize maxMatches (values.zip indices) none 0 [] [] ?_
        intro p hp
        obtain ⟨a, b⟩ := p
        exact h a (mem_left_of_zip hp)

theorem C2_suffix_pruning_lossless_nonneg_witness :
    (∀ v ∈ ([2, 3, 5] : List Int), 0 ≤ v) ∧
    find_combinations [2, 3, 5] [0, 1, 2] 5 5 0 =
      find_combinations_noprune [2, 3, 5] [0, 1, 2] 5 5 0 :=
  ⟨by decide, C2_suffix_pruning_lossless_nonneg [2, 3, 5] [0, 1, 2] 5 5 0 (by decide)⟩

/-- C9: every tagged match in the pipeline's output sums exactly (in
integer cents) to the target of the run that produced it: the search's
acceptance predicate is exact equality, and the post-hoc tolerance
re-filter only ever sees exact matches, so a combination inside the
tolerance window whose sum differs from the target is never reported. -/
theorem C9_matches_sum_exactly_to_target (colPresent : Bool) (rows : List (Nat × ℚ))
    (target tol : ℚ) (maxSize maxMatches : Int) (timeout : ℚ) (bothSigns : Bool)
    (out : List (Int × Combo)) (t : Int) (m : Combo)
    (hout : main_model colPresent rows target tol maxSize maxMatches timeout bothSigns =
      .ok out)
    (hmem : (t, m) ∈ out) :
    matchSum m = t := by
  cases colPresent with
  | false => exact absurd hout (by simp [main_model])
  | true =>
    simp only [main_model, Bool.true_eq_false, if_false] at hout
    by_cases hc : candidatePairs rows (to_cents target) (to_cents tol) = []
    · rw [if_pos hc] at hout
      injection hout with h'
      rw [← h'] at hmem
      exact absurd hmem (List.not_mem_nil _)
    · rw [if_neg hc] at hout
      injection hout with h'
      rw [← h'] at hmem
      obtain ⟨l, hl, hml⟩ := List.mem_flatten.1 hmem
      obtain ⟨t', ht', rfl⟩ := List.mem_map.1 hl
      simp only [collectFor] at hml
      obtain ⟨m', hm', heq⟩ := List.mem_map.1 hml
      rw [Prod.mk.injEq] at heq
      obtain ⟨rfl, rfl⟩ := heq
      exact find_combinations_sum_inv _ _ _ _ _ m' (List.mem_filter.1 hm').1

theorem C9_matches_sum_exactly_to_target_witness :
    main_model true [(0, 5), (1, 5), (2, 10)] 10 0 5 0 0 false =
      .ok [(1000, [(0, 500), (1, 500)]), (1000, [(2, 1000)])] ∧
    matchSum [(2, 1000)] = 1000 := by
  have h : main_model true [(0, 5), (1, 5), (2, 10)] 10 0 5 0 0 false =
      .ok [(1000, [(0, 500), (1, 500)]), (1000, [(2, 1000)])] := by
    simp only [main_model, candidatePairs, List.map, to_cents_5, to_cents_10, to_cents_zero]
    rfl
  exact ⟨h, C9_matches_sum_exactly_to_target true [(0, 5), (1, 5), (2, 10)] 10 0 5 0 0 false
    _ 1000 [(2, 1000)] h (by simp)⟩

/-- C10: two timed runs of the search on the same input and configuration
that both finish without hitting their deadlines produce identical match
lists — the same matches, with the same contents, in the same order —
whatever their deadlines and start clocks were: the output depends only
on the input order and the configuration. -/
theorem C10_no_timeout_runs_agree (values : List Int) (indices : List Nat)
    (target maxSize maxMatches : Int) (d1 c1 d2 c2 : Nat) (ms1 ms2 : List Combo)
    (k1 k2 : Nat)
    (h1 : find_combinations_timed values indices target maxSize maxMatches d1 c1 =
      .ok (ms1, k1))
    (h2 : find_combinations_timed values indices target maxSize maxMatches d2 c2 =
      .ok (ms2, k2)) :
    ms1 = ms2 := by
  rw [find_combinations_timed_ok_eq values indices target maxSize maxMatches d1 c1 ms1 k1 h1,
    find_combinations_timed_ok_eq values indices target maxSize maxMatches d2 c2 ms2 k2 h2]

theorem C10_no_timeout_runs_agree_witness :
    find_combinations_timed [5, 10] [0, 1] 5 5 0 10 0 = .ok ([[(0, 5)]], 3) ∧
    find_combinations_timed [5, 10] [0, 1] 5 5 0 100 7 = .ok ([[(0, 5)]], 10) ∧
    ([[(0, 5)]] : List Combo) = [[(0, 5)]] :=
  ⟨rfl, rfl,
    C10_no_timeout_runs_agree [5, 10] [0, 1] 5 5 0 10 0 100 7 [[(0, 5)]] [[(0, 5)]] 3 10
      rfl rfl⟩

end FindCombinations
